import Mathlib

set_option maxRecDepth 16384

/-!
Verification of the pipeline-polling state machine of `src/utils.ts`
(`pollDeployPipelines`, `doUntil`, `buildPipelineErrorMessage`,
`parseNameAndVersion`) against its specification.

The poller is embedded shallowly: one call of the `doUntil` body becomes the
pure function `pollTick`, which consumes the fetch result of that tick (the
`getDeployPipeline` answer, `Option PipelineSnapshot`) and yields the list of
observable UI/log events of the tick, the updated `lastStatus`, and the
control outcome (`next` = the body returned false, `done` = it returned true,
`fatal m` = `command.error m` was raised, which aborts the body).  `pollRun`
then replays `doUntil` over a finite script of successive fetch results,
recording the inter-tick sleeps.
-/

namespace SquidCli

/-- Modelled from the spec: the string enum `DeployPipelineStatusEnum` is
imported from `src/rest-client/routes/pipeline`, which is not among the
sources; §3 of the spec lists its recognized members, in order, as
`CREATED`, `IMAGE_BUILDING`, `IMAGE_PUSHING`, `DEPLOYING`, `OK`.  The
member tokens are used as the (pairwise distinct) string values. -/
def DeployPipelineStatusEnum.CREATED : String := "CREATED"

def DeployPipelineStatusEnum.IMAGE_BUILDING : String := "IMAGE_BUILDING"

def DeployPipelineStatusEnum.IMAGE_PUSHING : String := "IMAGE_PUSHING"

def DeployPipelineStatusEnum.DEPLOYING : String := "DEPLOYING"

def DeployPipelineStatusEnum.OK : String := "OK"

open DeployPipelineStatusEnum

/-- A point-in-time read of the pipeline, as consumed by the poller:
`pipeline.id`, `pipeline.status`, `pipeline.isErrorOccurred`,
`pipeline.logs`, `pipeline.comment` (absent comment = `none`). -/
structure PipelineSnapshot where
  id : String
  status : String
  isErrorOccurred : Bool
  logs : List String
  comment : Option String
deriving DecidableEq

/-- chalk's `dim s`: the text wrapped in the ANSI dim / reset-dim codes. -/
def dim (s : String) : String := "\x1b[2m" ++ s ++ "\x1b[22m"

/-- The function `buildPipelineErrorMessage(text, errorMessage)` of utils.ts line 13:
template `${text} ${errorMessage ? `: ${errorMessage}` : ''}`; a JS string
is truthy exactly when it is nonempty. -/
def buildPipelineErrorMessage (text errorMessage : String) : String :=
  text ++ " " ++ (if errorMessage ≠ "" then ": " ++ errorMessage else "")

/-- The `traceDebug` template literal of utils.ts lines 50-56, with the
source's exact newlines, six-space indents and trailing spaces. -/
def traceDebug (squidName versionName pipelineId : String) : String :=
  "\n      ------\n      Please report to t.me/HydraDevs \n      " ++
    dim "Squid:" ++ " " ++ squidName ++ "\n      " ++
    dim "Version:" ++ " " ++ versionName ++ "\n      " ++
    dim "Deploy:" ++ " " ++ pipelineId ++ "\n      "

/-- The text logged by `printDebug` (utils.ts line 68):
`dim([...pipeline.logs, pipeline.comment].filter((v) => v).join('\n'))`.
JS `filter(v => v)` drops the falsy entries, i.e. absent (`undefined`)
values and empty strings. -/
def printDebugText (p : PipelineSnapshot) : String :=
  dim (String.intercalate "\n"
    (((p.logs.map some) ++ [p.comment]).filterMap id |>.filter (fun v => v ≠ "")))

/-- The success announcement of the `OK` branch (utils.ts line 109),
with the source's trailing space. -/
def okMessage (deploymentUrl : String) : String :=
  "Squid is running up. Your squid will be shortly available at " ++ deploymentUrl ++ " "

/-- The fatal message of the `default` branch (utils.ts lines 118-120). -/
def genericErrorMessage : String :=
  "❌ An unexpected error occurred. Please report to Discord https://discord.gg/KRvRcBdhEE or SquidDevs https://t.me/HydraDevs"

/-- The caller-supplied arguments of `pollDeployPipelines`. -/
structure PollArgs where
  orgCode : String
  squidName : String
  versionName : String
  deploymentUrl : String
  verbose : Bool
deriving DecidableEq

/-- The observable actions of one poll session, in emission order:
`CliUx.ux.action.stop`, `CliUx.ux.action.start`, `command.log`, the single
`streamSquidLogs` invocation, and the `setTimeout` pause of `doUntil`. -/
inductive Event where
  | actionStop (symbol : String)
  | actionStart (text : String)
  | log (text : String)
  | streamLogs (orgCode squidName versionName : String)
  | sleep (pause : Nat)
deriving DecidableEq

/-- Control outcome of one execution of the `doUntil` body. -/
inductive TickOutcome where
  | next
  | done
  | fatal (message : String)
deriving DecidableEq

/-- Outcome of a whole `doUntil` run over a finite script of fetch results:
the loop returned, `command.error` aborted it, or the script was exhausted
while the loop still wanted another tick. -/
inductive RunResult where
  | finished
  | fatal (message : String)
  | outOfInput
deriving DecidableEq

/-- The transition signal of utils.ts lines 61-64: when the reported status
differs from `lastStatus` the stop indicator `✔️` is emitted. -/
def stopEvents (lastStatus : Option String) (st : String) : List Event :=
  if some st ≠ lastStatus then [Event.actionStop "✔️"] else []

/-- The `printDebug` emission (utils.ts lines 66-71), gated on `verbose`.
Within a single tick every control path of the `switch` invokes
`printDebug` at most once, so the tick-local `isLogPrinted` latch never
suppresses anything and the gate reduces to the `verbose` test. -/
def debugEvents (verbose : Bool) (p : PipelineSnapshot) : List Event :=
  if verbose then [Event.log (printDebugText p)] else []

/-- One execution of the `doUntil` body of `pollDeployPipelines`
(utils.ts lines 47-123), given the current `lastStatus` and the tick's
`getDeployPipeline` result.  Returns the tick's events, the updated
`lastStatus`, and the control outcome. -/
def pollTick (a : PollArgs) (lastStatus : Option String)
    (pipeline : Option PipelineSnapshot) : List Event × Option String × TickOutcome :=
  match pipeline with
  | none => ([], lastStatus, TickOutcome.done)
  | some p =>
    let stops := stopEvents lastStatus p.status
    let last2 := if some p.status ≠ lastStatus then some p.status else lastStatus
    let debug := debugEvents a.verbose p
    let td := traceDebug a.squidName a.versionName p.id
    if p.status = CREATED then
      if p.isErrorOccurred then
        (stops ++ [Event.actionStart "◷ Preparing your squid"] ++ debug, last2,
          TickOutcome.fatal
            (buildPipelineErrorMessage "❌ An error occurred while building the squid" td))
      else
        (stops ++ [Event.actionStart "◷ Preparing your squid"], last2, TickOutcome.next)
    else if p.status = IMAGE_BUILDING then
      if p.isErrorOccurred then
        (stops ++ [Event.actionStart "◷ Building your squid"] ++ debug, last2,
          TickOutcome.fatal
            (buildPipelineErrorMessage "❌ An error occurred while building the squid" td))
      else
        (stops ++ [Event.actionStart "◷ Building your squid"], last2, TickOutcome.next)
    else if p.status = IMAGE_PUSHING then
      if p.isErrorOccurred then
        (stops ++ [Event.actionStart "◷ Publishing your squid"] ++ debug, last2,
          TickOutcome.fatal
            (buildPipelineErrorMessage "❌ An error occurred while publishing the squid" td))
      else
        (stops ++ [Event.actionStart "◷ Publishing your squid"], last2, TickOutcome.next)
    else if p.status = DEPLOYING then
      if p.isErrorOccurred then
        (stops ++ [Event.actionStart "◷ Deploying your squid"] ++ debug, last2,
          TickOutcome.fatal
            (buildPipelineErrorMessage "❌ An error occurred while deploying the squid" td))
      else
        (stops ++ [Event.actionStart "◷ Deploying your squid"], last2, TickOutcome.next)
    else if p.status = OK then
      (stops ++ debug ++
        [Event.log (okMessage a.deploymentUrl),
         Event.actionStart "Streaming logs from the squid",
         Event.streamLogs a.orgCode a.squidName a.versionName], last2, TickOutcome.done)
    else
      (stops ++ debug, last2, TickOutcome.fatal genericErrorMessage)

/-- Replay of `doUntil` (utils.ts lines 128-136) over a finite script of
successive fetch results: while the body returns false, sleep `pause` and
run the next tick; a true result returns; `command.error` aborts. -/
def pollRun (a : PollArgs) (pause : Nat) :
    List (Option PipelineSnapshot) → Option String → List Event × RunResult
  | [], _ => ([], RunResult.outOfInput)
  | p :: rest, last =>
    let t := pollTick a last p
    match t.2.2 with
    | TickOutcome.done => (t.1, RunResult.finished)
    | TickOutcome.fatal m => (t.1, RunResult.fatal m)
    | TickOutcome.next =>
      let r := pollRun a pause rest t.2.1
      (t.1 ++ Event.sleep pause :: r.1, r.2)

/-- The function `pollDeployPipelines` (utils.ts lines 29-126): `lastStatus` starts
undeclared (`undefined`, here `none`) and `doUntil` is entered with
`pause = 3000`. -/
def pollDeployPipelines (a : PollArgs)
    (script : List (Option PipelineSnapshot)) : List Event × RunResult :=
  pollRun a 3000 script none

/-- String containment, used by the claims about message contents. -/
def strContains (needle hay : String) : Prop :=
  List.IsInfix needle.data hay.data

instance (needle hay : String) : Decidable (strContains needle hay) := by
  unfold strContains; infer_instance

/-- Test: the event is a stop indicator. -/
def isStop : Event → Bool
  | Event.actionStop _ => true
  | _ => false

/-- Test: the event is a log-streamer invocation. -/
def isStream : Event → Bool
  | Event.streamLogs _ _ _ => true
  | _ => false

/-- Test: the event is a spinner start. -/
def isStart : Event → Bool
  | Event.actionStart _ => true
  | _ => false

/-- Number of status transitions the poller detects along a snapshot
sequence, starting from a given `lastStatus` (`none` = start of a session). -/
def countTransitions : Option String → List PipelineSnapshot → Nat
  | _, [] => 0
  | last, p :: rest =>
    (if some p.status ≠ last then 1 else 0) + countTransitions (some p.status) rest

/-- Spec-side abbreviation: the spinner label of each recognized
non-`OK` status, as the corresponding `switch` branch starts it. -/
def stageLabel (st : String) : String :=
  if st = CREATED then "◷ Preparing your squid"
  else if st = IMAGE_BUILDING then "◷ Building your squid"
  else if st = IMAGE_PUSHING then "◷ Publishing your squid"
  else "◷ Deploying your squid"

/-- Spec-side abbreviation: the stage word the claims expect inside the
stage-failure messages (`building` / `publishing` / `deploying`). -/
def stageWord (st : String) : String :=
  if st = IMAGE_PUSHING then "publishing"
  else if st = DEPLOYING then "deploying"
  else "building"

/-- Spec-side abbreviation: the human-readable text of the stage-failure
branch of each recognized non-`OK` status. -/
def stageText (st : String) : String :=
  if st = IMAGE_PUSHING then "❌ An error occurred while publishing the squid"
  else if st = DEPLOYING then "❌ An error occurred while deploying the squid"
  else "❌ An error occurred while building the squid"

/-- The status is one of the four recognized non-`OK` members. -/
def recognizedNonOk (st : String) : Prop :=
  st = CREATED ∨ st = IMAGE_BUILDING ∨ st = IMAGE_PUSHING ∨ st = DEPLOYING

instance (st : String) : Decidable (recognizedNonOk st) := by
  unfold recognizedNonOk; infer_instance

/-- Index of a status in the expected progression, unknown statuses last. -/
def stageIdx (st : String) : Nat :=
  if st = CREATED then 0
  else if st = IMAGE_BUILDING then 1
  else if st = IMAGE_PUSHING then 2
  else if st = DEPLOYING then 3
  else if st = OK then 4
  else 5

/-- The snapshot sequence only ever moves forward through the expected
status progression. -/
def forwardOrder : List PipelineSnapshot → Bool
  | [] => true
  | [_] => true
  | p :: q :: rest => decide (stageIdx p.status ≤ stageIdx q.status) && forwardOrder (q :: rest)

/-- A character matched by the JS regex metacharacter `.`: anything but a
line terminator (`\n`, `\r`, U+2028, U+2029). -/
def jsDotChar (c : Char) : Bool :=
  c ≠ '\n' && c ≠ '\r' && c ≠ '\u2028' && c ≠ '\u2029'

/-- Scan for a window `a @ c` with `.`-matching neighbours on both sides:
the regex `/.+@.+/` finds a match in a string exactly when some `@` has at
least one `.`-matching character immediately before it and one immediately
after it (a one-character `.+` on each side suffices, and any longer match
contains such a window). -/
def hasDotAtDotAux : List Char → Bool
  | a :: b :: c :: rest =>
    (jsDotChar a && b == '@' && jsDotChar c) || hasDotAtDotAux (b :: c :: rest)
  | _ => false

/-- The test `nameAndVersion.match(/.+@.+/gi)` is non-null, i.e. the regex matches
somewhere in the string (the `i` flag is irrelevant: the pattern has no
letters). -/
def hasFullMatch (s : String) : Bool := hasDotAtDotAux s.data

/-- The count `(nameAndVersion.match(/@/g) || []).length`: the number of `@`
occurrences. -/
def countAtSigns (s : String) : Nat := s.data.count '@'

/-- JS `String.prototype.split` with a single-character separator, on the
character list: splits at every separator occurrence, keeping empty parts. -/
def splitChars (sep : Char) : List Char → List (List Char)
  | [] => [[]]
  | c :: rest =>
    match splitChars sep rest with
    | [] => [[]]
    | h :: t => if c = sep then [] :: h :: t else (c :: h) :: t

/-- JS `s.split(sep)` for a single-character separator. -/
def jsSplit (s : String) (sep : Char) : List String :=
  (splitChars sep s.data).map (fun l => String.mk l)

/-- The function `parseNameAndVersion` (utils.ts lines 177-190).  `command.error`
aborts, modelled as `Except.error`; on the success path the result is
`split('@')[0]` and `split('@')[1]` (both in range, since the guard has
ensured exactly one `@`). -/
def parseNameAndVersion (nameAndVersion : String) : Except String (String × String) :=
  if hasFullMatch nameAndVersion = false ∨ countAtSigns nameAndVersion ≠ 1 then
    Except.error "Required format: <name>@<version>. Symbol @ not allowed in names"
  else
    Except.ok ((jsSplit nameAndVersion '@').getD 0 "", (jsSplit nameAndVersion '@').getD 1 "")

/-- The debug dump as the spec words it: each element of the log sequence,
then the trailing comment if present, with empty/falsy entries filtered
out, joined by newline, dim-styled. -/
def specDebugDump (p : PipelineSnapshot) : String :=
  dim (String.intercalate "\n" ((p.logs ++ p.comment.toList).filter (fun v => v ≠ "")))

/-! ### Helper lemmas -/

theorem strContains_refl (s : String) : strContains s s :=
  ⟨[], [], by simp⟩

theorem strContains_left {needle a : String} (b : String) (h : strContains needle a) :
    strContains needle (a ++ b) := by
  obtain ⟨pre, suf, hps⟩ := h
  exact ⟨pre, suf ++ b.data, by simp [String.data_append, ← hps]⟩

theorem strContains_right {needle b : String} (a : String) (h : strContains needle b) :
    strContains needle (a ++ b) := by
  obtain ⟨pre, suf, hps⟩ := h
  exact ⟨a.data ++ pre, suf, by simp [String.data_append, ← hps]⟩

theorem traceDebug_ne_empty (n v i : String) : traceDebug n v i ≠ "" := by
  intro h
  have h2 := congrArg String.length h
  simp [traceDebug, dim, String.length_append] at h2
  exact absurd h2.1.1.1.1.1.1.1.1.1.1 (by decide)

theorem buildPipelineErrorMessage_of_ne_empty (text td : String) (h : td ≠ "") :
    buildPipelineErrorMessage text td = text ++ " " ++ (": " ++ td) := by
  simp [buildPipelineErrorMessage, h]

theorem traceDebug_contains_squidName (n v i : String) : strContains n (traceDebug n v i) := by
  unfold traceDebug
  exact strContains_left _ (strContains_left _ (strContains_left _ (strContains_left _
    (strContains_left _ (strContains_left _ (strContains_left _ (strContains_left _
      (strContains_left _ (strContains_right _ (strContains_refl n))))))))))

theorem traceDebug_contains_versionName (n v i : String) : strContains v (traceDebug n v i) := by
  unfold traceDebug
  exact strContains_left _ (strContains_left _ (strContains_left _ (strContains_left _
    (strContains_left _ (strContains_right _ (strContains_refl v))))))

theorem traceDebug_contains_pipelineId (n v i : String) : strContains i (traceDebug n v i) := by
  unfold traceDebug
  exact strContains_left _ (strContains_right _ (strContains_refl i))

theorem traceDebug_contains_banner (n v i : String) : strContains "------" (traceDebug n v i) := by
  unfold traceDebug
  refine strContains_left _ (strContains_left _ (strContains_left _ (strContains_left _
    (strContains_left _ (strContains_left _ (strContains_left _ (strContains_left _
      (strContains_left _ (strContains_left _ (strContains_left _ (strContains_left _ ?_)))))))))))
  decide

theorem buildMessage_contains (text td sub : String) (h : strContains sub td) (hne : td ≠ "") :
    strContains sub (buildPipelineErrorMessage text td) := by
  rw [buildPipelineErrorMessage_of_ne_empty text td hne]
  exact strContains_right _ (strContains_right _ h)

theorem buildMessage_contains_text (text td sub : String) (h : strContains sub text) :
    strContains sub (buildPipelineErrorMessage text td) := by
  unfold buildPipelineErrorMessage
  exact strContains_left _ (strContains_left _ h)

/-- Normal-progress tick: recognized non-`OK` status, no error flag. -/
theorem progress_tick (a : PollArgs) (last : Option String) (s : PipelineSnapshot)
    (h4 : recognizedNonOk s.status) (herr : s.isErrorOccurred = false) :
    pollTick a last (some s) =
      (stopEvents last s.status ++ [Event.actionStart (stageLabel s.status)],
        some s.status, TickOutcome.next) := by
  have hlast : (if some s.status ≠ last then some s.status else last) = some s.status := by
    split
    · rfl
    · rename_i hne
      exact (not_ne_iff.mp hne).symm
  rcases h4 with hc | hc | hc | hc <;>
    simp [pollTick, hc, CREATED, IMAGE_BUILDING, IMAGE_PUSHING, DEPLOYING, OK,
      stageLabel, herr, hlast] <;>
    exact fun h => h.symm

/-- Stage-failure tick: recognized non-`OK` status with the error flag set. -/
theorem failure_tick (a : PollArgs) (last : Option String) (s : PipelineSnapshot)
    (h4 : recognizedNonOk s.status) (herr : s.isErrorOccurred = true) :
    pollTick a last (some s) =
      (stopEvents last s.status ++ [Event.actionStart (stageLabel s.status)] ++
          debugEvents a.verbose s,
        some s.status,
        TickOutcome.fatal (buildPipelineErrorMessage (stageText s.status)
          (traceDebug a.squidName a.versionName s.id))) := by
  have hlast : (if some s.status ≠ last then some s.status else last) = some s.status := by
    split
    · rfl
    · rename_i hne
      exact (not_ne_iff.mp hne).symm
  rcases h4 with hc | hc | hc | hc <;>
    simp [pollTick, hc, CREATED, IMAGE_BUILDING, IMAGE_PUSHING, DEPLOYING, OK,
      stageLabel, stageText, herr, hlast] <;>
    exact fun h => h.symm

/-- Success tick: the `OK` branch. -/
theorem ok_tick (a : PollArgs) (last : Option String) (s : PipelineSnapshot)
    (hok : s.status = OK) :
    pollTick a last (some s) =
      (stopEvents last s.status ++ debugEvents a.verbose s ++
        [Event.log (okMessage a.deploymentUrl),
         Event.actionStart "Streaming logs from the squid",
         Event.streamLogs a.orgCode a.squidName a.versionName],
        some s.status, TickOutcome.done) := by
  have hlast : (if some s.status ≠ last then some s.status else last) = some s.status := by
    split
    · rfl
    · rename_i hne
      exact (not_ne_iff.mp hne).symm
  simp [pollTick, hok, CREATED, IMAGE_BUILDING, IMAGE_PUSHING, DEPLOYING, OK, hlast] <;>
    exact fun h => h.symm

/-- Unrecognized-status tick: the `default` branch. -/
theorem default_tick (a : PollArgs) (last : Option String) (s : PipelineSnapshot)
    (h4 : ¬ recognizedNonOk s.status) (hok : s.status ≠ OK) :
    pollTick a last (some s) =
      (stopEvents last s.status ++ debugEvents a.verbose s,
        some s.status, TickOutcome.fatal genericErrorMessage) := by
  have hlast : (if some s.status ≠ last then some s.status else last) = some s.status := by
    split
    · rfl
    · rename_i hne
      exact (not_ne_iff.mp hne).symm
  rw [recognizedNonOk] at h4
  push_neg at h4
  obtain ⟨h1, h2, h3, h5⟩ := h4
  simp [pollTick, h1, h2, h3, h5, hok, hlast] <;>
    exact fun h => h.symm

theorem run_cons_done (a : PollArgs) (pause : Nat) (p : Option PipelineSnapshot)
    (rest : List (Option PipelineSnapshot)) (last : Option String)
    (h : (pollTick a last p).2.2 = TickOutcome.done) :
    pollRun a pause (p :: rest) last = ((pollTick a last p).1, RunResult.finished) := by
  simp only [pollRun, h]

theorem run_cons_fatal (a : PollArgs) (pause : Nat) (p : Option PipelineSnapshot)
    (rest : List (Option PipelineSnapshot)) (last : Option String) (m : String)
    (h : (pollTick a last p).2.2 = TickOutcome.fatal m) :
    pollRun a pause (p :: rest) last = ((pollTick a last p).1, RunResult.fatal m) := by
  simp only [pollRun, h]

theorem run_cons_next (a : PollArgs) (pause : Nat) (p : Option PipelineSnapshot)
    (rest : List (Option PipelineSnapshot)) (last : Option String)
    (h : (pollTick a last p).2.2 = TickOutcome.next) :
    pollRun a pause (p :: rest) last =
      ((pollTick a last p).1 ++ Event.sleep pause :: (pollRun a pause rest (pollTick a last p).2.1).1,
        (pollRun a pause rest (pollTick a last p).2.1).2) := by
  simp only [pollRun, h]

/-- No tick ever emits a sleep event itself; sleeps belong to `doUntil`. -/
theorem tick_no_sleep (a : PollArgs) (last : Option String)
    (p : Option PipelineSnapshot) (q : Nat) :
    Event.sleep q ∉ (pollTick a last p).1 := by
  match p with
  | none => simp [pollTick]
  | some s =>
    simp only [pollTick]
    split <;> [skip; split <;> [skip; split <;> [skip; split <;> [skip; split]]]] <;>
      first
      | (split <;> simp [stopEvents, debugEvents] <;> split <;> simp <;> split <;> simp)
      | (simp [stopEvents, debugEvents] <;> split <;> simp <;> split <;> simp)

/-- On a found-pipeline tick whose status differs from `lastStatus`, the
tick's trace starts with the stop indicator. -/
theorem tick_head_stop (a : PollArgs) (s : PipelineSnapshot) (last : Option String)
    (h : some s.status ≠ last) :
    ∃ tl, (pollTick a last (some s)).1 = Event.actionStop "✔️" :: tl := by
  by_cases h4 : recognizedNonOk s.status
  · by_cases herr : s.isErrorOccurred
    · rw [failure_tick a last s h4 herr]
      exact ⟨[Event.actionStart (stageLabel s.status)] ++ debugEvents a.verbose s,
        by rw [stopEvents, if_pos h]; rfl⟩
    · rw [progress_tick a last s h4 (by simpa using herr)]
      exact ⟨[Event.actionStart (stageLabel s.status)], by rw [stopEvents, if_pos h]; rfl⟩
  · by_cases hok : s.status = OK
    · rw [ok_tick a last s hok]
      exact ⟨debugEvents a.verbose s ++
        [Event.log (okMessage a.deploymentUrl),
         Event.actionStart "Streaming logs from the squid",
         Event.streamLogs a.orgCode a.squidName a.versionName],
        by rw [stopEvents, if_pos h]; rfl⟩
    · rw [default_tick a last s h4 hok]
      exact ⟨debugEvents a.verbose s, by rw [stopEvents, if_pos h]; rfl⟩

/-- C7: on a tick where the fetch reports the pipeline as not found, the
loop terminates successfully at once: no event is emitted (no announcement,
no debug dump, no streaming, no sleep) and the remaining script — any
further polling — is ignored. -/
theorem pipeline_not_found_silent_success (a : PollArgs) (pause : Nat)
    (rest : List (Option PipelineSnapshot)) (last : Option String) :
    pollRun a pause (none :: rest) last = ([], RunResult.finished) := by
  rw [run_cons_done a pause none rest last rfl]
  rfl

/-- C10: on the very first tick of `pollDeployPipelines`, whatever status a
found pipeline reports, the very first emitted event is the stop indicator
`✔️`, because `lastStatus` starts out undefined and thus differs from every
reported status. -/
theorem first_tick_emits_stop (a : PollArgs) (s : PipelineSnapshot)
    (rest : List (Option PipelineSnapshot)) :
    (pollDeployPipelines a (some s :: rest)).1.head? = some (Event.actionStop "✔️") := by
  obtain ⟨tl, htl⟩ := tick_head_stop a s none (by simp)
  unfold pollDeployPipelines
  rcases ho : (pollTick a none (some s)).2.2 with _ | _ | m
  · rw [run_cons_next a 3000 _ rest none ho, htl]
    simp
  · rw [run_cons_done a 3000 _ rest none ho, htl]
    rfl
  · rw [run_cons_fatal a 3000 _ rest none m ho, htl]
    rfl

/-- C3, counterexample: a tick whose snapshot repeats the previous status
(`CREATED` after `CREATED`, no transition) still emits the spinner-start
action `◷ Preparing your squid`. -/
theorem spinner_restart_on_unchanged_status :
    pollTick (PollArgs.mk "org" "my-squid" "v1" "https://test.squids.live" true)
        (some "CREATED") (some (PipelineSnapshot.mk "dep-1" "CREATED" false [] none)) =
      ([Event.actionStart "◷ Preparing your squid"], some "CREATED", TickOutcome.next) ∧
    Event.actionStart "◷ Preparing your squid" ∈
      (pollTick (PollArgs.mk "org" "my-squid" "v1" "https://test.squids.live" true)
        (some "CREATED") (some (PipelineSnapshot.mk "dep-1" "CREATED" false [] none))).1 := by
  constructor <;> decide

/-- C3, amended: a tick with a recognized non-`OK` status emits the
spinner-start action with the stage label on *every* such tick, transition
or not; what is gated on a status transition is the stop indicator `✔️`,
which fires exactly when the reported status differs from `lastStatus`. -/
theorem spinner_start_every_recognized_tick (a : PollArgs) (last : Option String)
    (s : PipelineSnapshot) (h4 : recognizedNonOk s.status) :
    Event.actionStart (stageLabel s.status) ∈ (pollTick a last (some s)).1 ∧
    (Event.actionStop "✔️" ∈ (pollTick a last (some s)).1 ↔ some s.status ≠ last) := by
  by_cases herr : s.isErrorOccurred
  · rw [failure_tick a last s h4 herr]
    refine ⟨by simp, ?_⟩
    by_cases hl : some s.status ≠ last
    · simp [stopEvents, hl]
    · simp [stopEvents, hl, debugEvents]
  · rw [progress_tick a last s h4 (by simpa using herr)]
    refine ⟨by simp, ?_⟩
    by_cases hl : some s.status ≠ last
    · simp [stopEvents, hl]
    · simp [stopEvents, hl]

/-- Witness for the amended C3 at a concrete non-transition tick. -/
theorem spinner_start_every_recognized_tick_witness :
    recognizedNonOk "DEPLOYING" ∧
    (Event.actionStart (stageLabel "DEPLOYING") ∈
      (pollTick (PollArgs.mk "o" "n" "v" "u" false) (some "DEPLOYING")
        (some (PipelineSnapshot.mk "i" "DEPLOYING" false [] none))).1 ∧
      (Event.actionStop "✔️" ∈
        (pollTick (PollArgs.mk "o" "n" "v" "u" false) (some "DEPLOYING")
          (some (PipelineSnapshot.mk "i" "DEPLOYING" false [] none))).1 ↔
        some "DEPLOYING" ≠ (some "DEPLOYING" : Option String))) :=
  ⟨by decide,
    spinner_start_every_recognized_tick (PollArgs.mk "o" "n" "v" "u" false) (some "DEPLOYING")
      (PipelineSnapshot.mk "i" "DEPLOYING" false [] none) (by decide)⟩

/-- C2: a snapshot with a recognized non-`OK` status and the error flag set
terminates the run on that tick with a fatal error whose message names the
stage (`building` for `CREATED`/`IMAGE_BUILDING`, `publishing` for
`IMAGE_PUSHING`, `deploying` for `DEPLOYING`); the rest of the script — any
further `getDeployPipeline` call — is never consumed. -/
theorem stage_failure_fatal_and_final (a : PollArgs) (pause : Nat)
    (rest : List (Option PipelineSnapshot)) (last : Option String)
    (s : PipelineSnapshot)
    (h4 : recognizedNonOk s.status) (herr : s.isErrorOccurred = true) :
    ∃ m, pollRun a pause (some s :: rest) last = ((pollTick a last (some s)).1, RunResult.fatal m) ∧
      pollRun a pause (some s :: rest) last = pollRun a pause [some s] last ∧
      strContains (stageWord s.status) m := by
  have ht := failure_tick a last s h4 herr
  have ho : (pollTick a last (some s)).2.2 =
      TickOutcome.fatal (buildPipelineErrorMessage (stageText s.status)
        (traceDebug a.squidName a.versionName s.id)) := by rw [ht]
  refine ⟨_, run_cons_fatal a pause _ rest last _ ho, ?_, ?_⟩
  · rw [run_cons_fatal a pause _ rest last _ ho, run_cons_fatal a pause _ [] last _ ho]
  · apply buildMessage_contains_text
    rcases h4 with hc | hc | hc | hc <;> rw [hc] <;> decide

/-- Witness for C2 at a concrete failing snapshot mid-run. -/
theorem stage_failure_fatal_and_final_witness :
    recognizedNonOk "DEPLOYING" ∧
    (PipelineSnapshot.mk "dep-1" "DEPLOYING" true [] none).isErrorOccurred = true ∧
    ∃ m, pollRun (PollArgs.mk "o" "n" "v" "u" true) 3000
          [some (PipelineSnapshot.mk "dep-1" "DEPLOYING" true [] none), none] none =
        ((pollTick (PollArgs.mk "o" "n" "v" "u" true) none
          (some (PipelineSnapshot.mk "dep-1" "DEPLOYING" true [] none))).1, RunResult.fatal m) ∧
      pollRun (PollArgs.mk "o" "n" "v" "u" true) 3000
          [some (PipelineSnapshot.mk "dep-1" "DEPLOYING" true [] none), none] none =
        pollRun (PollArgs.mk "o" "n" "v" "u" true) 3000
          [some (PipelineSnapshot.mk "dep-1" "DEPLOYING" true [] none)] none ∧
      strContains (stageWord "DEPLOYING") m :=
  ⟨by decide, rfl,
    stage_failure_fatal_and_final (PollArgs.mk "o" "n" "v" "u" true) 3000 [none] none
      (PipelineSnapshot.mk "dep-1" "DEPLOYING" true [] none) (by decide) rfl⟩

/-- C5, counterexample: the unrecognized-status fatal error does not carry
the available debug context: the generic message contains neither the
banner nor the squid name nor the pipeline id, although both are at hand. -/
theorem generic_fatal_lacks_debug_dump :
    (pollTick (PollArgs.mk "o" "my-squid" "v1" "u" true) none
        (some (PipelineSnapshot.mk "dep-1" "UNKNOWN_STATUS" false [] none))).2.2 =
      TickOutcome.fatal genericErrorMessage ∧
    ¬ strContains "my-squid" genericErrorMessage ∧
    ¬ strContains "------" genericErrorMessage ∧
    ¬ strContains "dep-1" genericErrorMessage :=
  ⟨by decide, by decide, by decide, by decide⟩

/-- C5, amended: every fatal error of the poller halts the loop at once —
the run equals the failing tick alone, and no sleep (hence no further tick
or poll) follows.  The four stage-failure errors carry the full debug
context (banner, squid name, version name, pipeline id); the
unrecognized-status error carries only the fixed generic message. -/
theorem fatal_errors_halt_and_carry_context (a : PollArgs) (pause : Nat)
    (rest : List (Option PipelineSnapshot)) (last : Option String)
    (s : PipelineSnapshot) (m : String)
    (hfatal : (pollTick a last (some s)).2.2 = TickOutcome.fatal m) :
    pollRun a pause (some s :: rest) last = ((pollTick a last (some s)).1, RunResult.fatal m) ∧
    (∀ q, Event.sleep q ∉ (pollRun a pause (some s :: rest) last).1) ∧
    (recognizedNonOk s.status →
      strContains "------" m ∧ strContains a.squidName m ∧
      strContains a.versionName m ∧ strContains s.id m) ∧
    (¬ recognizedNonOk s.status → m = genericErrorMessage) := by
  have hrun := run_cons_fatal a pause (some s) rest last m hfatal
  refine ⟨hrun, ?_, ?_, ?_⟩
  · intro q
    rw [hrun]
    exact tick_no_sleep a last (some s) q
  · intro h4
    have herr : s.isErrorOccurred = true := by
      by_contra hne
      rw [progress_tick a last s h4 (by simpa using hne)] at hfatal
      exact TickOutcome.noConfusion hfatal
    rw [failure_tick a last s h4 herr] at hfatal
    have hm : buildPipelineErrorMessage (stageText s.status)
        (traceDebug a.squidName a.versionName s.id) = m := by
      injection hfatal
    rw [← hm]
    have hne := traceDebug_ne_empty a.squidName a.versionName s.id
    exact ⟨buildMessage_contains _ _ _ (traceDebug_contains_banner _ _ _) hne,
      buildMessage_contains _ _ _ (traceDebug_contains_squidName _ _ _) hne,
      buildMessage_contains _ _ _ (traceDebug_contains_versionName _ _ _) hne,
      buildMessage_contains _ _ _ (traceDebug_contains_pipelineId _ _ _) hne⟩
  · intro h4
    by_cases hok : s.status = OK
    · rw [ok_tick a last s hok] at hfatal
      exact TickOutcome.noConfusion hfatal
    · rw [default_tick a last s h4 hok] at hfatal
      have : genericErrorMessage = m := by injection hfatal
      exact this.symm

/-- Witness for C5 at a concrete fatal tick (unrecognized status). -/
theorem fatal_errors_halt_and_carry_context_witness :
    (pollTick (PollArgs.mk "o" "n" "v" "u" false) none
        (some (PipelineSnapshot.mk "i" "WAT" false [] none))).2.2 =
      TickOutcome.fatal genericErrorMessage ∧
    pollRun (PollArgs.mk "o" "n" "v" "u" false) 3000
        [some (PipelineSnapshot.mk "i" "WAT" false [] none), none] none =
      ((pollTick (PollArgs.mk "o" "n" "v" "u" false) none
        (some (PipelineSnapshot.mk "i" "WAT" false [] none))).1,
        RunResult.fatal genericErrorMessage) :=
  ⟨by decide,
    (fatal_errors_halt_and_carry_context (PollArgs.mk "o" "n" "v" "u" false) 3000 [none] none
      (PipelineSnapshot.mk "i" "WAT" false [] none) genericErrorMessage (by decide)).1⟩

/-- C6: a snapshot with an unrecognized status ends the run on that tick
with the generic fatal message (which points at the support channels), the
rest of the script is never polled, and — when verbose — the debug dump is
emitted exactly once on that tick. -/
theorem unrecognized_status_fatal (a : PollArgs) (pause : Nat)
    (rest : List (Option PipelineSnapshot)) (last : Option String) (s : PipelineSnapshot)
    (h4 : ¬ recognizedNonOk s.status) (hok : s.status ≠ OK) :
    pollRun a pause (some s :: rest) last =
      ((pollTick a last (some s)).1, RunResult.fatal genericErrorMessage) ∧
    pollRun a pause (some s :: rest) last = pollRun a pause [some s] last ∧
    strContains "https://discord.gg/KRvRcBdhEE" genericErrorMessage ∧
    ((pollTick a last (some s)).1.countP (fun e => decide (e = Event.log (printDebugText s))) =
      if a.verbose then 1 else 0) := by
  have ht := default_tick a last s h4 hok
  have ho : (pollTick a last (some s)).2.2 = TickOutcome.fatal genericErrorMessage := by rw [ht]
  have hrun := run_cons_fatal a pause (some s) rest last _ ho
  refine ⟨hrun, ?_, by decide, ?_⟩
  · rw [hrun, run_cons_fatal a pause (some s) [] last _ ho]
  · rw [ht]
    cases hv : a.verbose <;> by_cases hl : some s.status ≠ last <;>
      simp [stopEvents, debugEvents, hl, hv, List.countP_append, List.countP_cons]

/-- Witness for C6 at a concrete unrecognized status. -/
theorem unrecognized_status_fatal_witness :
    ¬ recognizedNonOk "BOOTING" ∧ "BOOTING" ≠ DeployPipelineStatusEnum.OK ∧
    pollRun (PollArgs.mk "o" "n" "v" "u" true) 3000
        [some (PipelineSnapshot.mk "i" "BOOTING" false ["x"] none), none] none =
      ((pollTick (PollArgs.mk "o" "n" "v" "u" true) none
        (some (PipelineSnapshot.mk "i" "BOOTING" false ["x"] none))).1,
        RunResult.fatal genericErrorMessage) :=
  ⟨by decide, by decide,
    (unrecognized_status_fatal (PollArgs.mk "o" "n" "v" "u" true) 3000 [none] none
      (PipelineSnapshot.mk "i" "BOOTING" false ["x"] none) (by decide) (by decide)).1⟩

/-- C4, counterexample: on a verbose `OK` tick the emitted debug text is
only the filtered log/comment join — it contains neither the banner nor
the squid name, the version name or the pipeline id. -/
theorem debug_dump_lacks_context_on_ok :
    Event.log (printDebugText (PipelineSnapshot.mk "dep-1" "OK" false ["hello", ""] none)) ∈
      (pollTick (PollArgs.mk "org" "my-squid" "v1" "u" true) none
        (some (PipelineSnapshot.mk "dep-1" "OK" false ["hello", ""] none))).1 ∧
    printDebugText (PipelineSnapshot.mk "dep-1" "OK" false ["hello", ""] none) = dim "hello" ∧
    ¬ strContains "my-squid" (dim "hello") ∧
    ¬ strContains "v1" (dim "hello") ∧
    ¬ strContains "dep-1" (dim "hello") ∧
    ¬ strContains "------" (dim "hello") :=
  ⟨by decide, by decide, by decide, by decide, by decide, by decide⟩

/-- The emitted debug text, computed as the code does it, equals the dump
as the spec words it: log lines then comment, falsy entries filtered out,
joined by newline. -/
theorem printDebug_refines (q : PipelineSnapshot) : printDebugText q = specDebugDump q := by
  have h : ((q.logs.map some) ++ [q.comment]).filterMap id = q.logs ++ q.comment.toList := by
    rw [List.filterMap_append]
    congr 1
    · simp [List.filterMap_map]
  unfold printDebugText specDebugDump
  rw [h]

/-- C4, amended: whenever the dump is triggered (here: a verbose
stage-failure tick) the emitted debug text is exactly the spec-worded
filtered join of log lines and comment; the banner, squid name, version
name and pipeline id travel in the fatal message instead, via the
`traceDebug` string. -/
theorem debug_dump_content_and_fatal_context (a : PollArgs) (last : Option String)
    (s : PipelineSnapshot) (h4 : recognizedNonOk s.status) (herr : s.isErrorOccurred = true)
    (hv : a.verbose = true) :
    (∀ q : PipelineSnapshot, printDebugText q = specDebugDump q) ∧
    Event.log (specDebugDump s) ∈ (pollTick a last (some s)).1 ∧
    ∃ m, (pollTick a last (some s)).2.2 = TickOutcome.fatal m ∧
      strContains "------" m ∧ strContains a.squidName m ∧
      strContains a.versionName m ∧ strContains s.id m := by
  refine ⟨printDebug_refines, ?_, ?_⟩
  · rw [failure_tick a last s h4 herr]
    simp [debugEvents, hv, printDebug_refines s]
  · rw [failure_tick a last s h4 herr]
    have hne := traceDebug_ne_empty a.squidName a.versionName s.id
    exact ⟨_, rfl,
      buildMessage_contains _ _ _ (traceDebug_contains_banner _ _ _) hne,
      buildMessage_contains _ _ _ (traceDebug_contains_squidName _ _ _) hne,
      buildMessage_contains _ _ _ (traceDebug_contains_versionName _ _ _) hne,
      buildMessage_contains _ _ _ (traceDebug_contains_pipelineId _ _ _) hne⟩

/-- Witness for the amended C4 at a concrete verbose failing tick. -/
theorem debug_dump_content_and_fatal_context_witness :
    recognizedNonOk "CREATED" ∧
    Event.log (specDebugDump (PipelineSnapshot.mk "dep-1" "CREATED" true ["a", ""] (some "c"))) ∈
      (pollTick (PollArgs.mk "o" "sq" "v1" "u" true) none
        (some (PipelineSnapshot.mk "dep-1" "CREATED" true ["a", ""] (some "c")))).1 :=
  ⟨by decide,
    (debug_dump_content_and_fatal_context (PollArgs.mk "o" "sq" "v1" "u" true) none
      (PipelineSnapshot.mk "dep-1" "CREATED" true ["a", ""] (some "c"))
      (by decide) rfl rfl).2.1⟩

theorem stopEvents_countP_isStop (last : Option String) (st : String) :
    (stopEvents last st).countP isStop = if some st ≠ last then 1 else 0 := by
  unfold stopEvents
  split <;> simp [isStop]

theorem stopEvents_countP_isStream (last : Option String) (st : String) :
    (stopEvents last st).countP isStream = 0 := by
  unfold stopEvents
  split <;> simp [isStream]

theorem debugEvents_countP_isStop (v : Bool) (p : PipelineSnapshot) :
    (debugEvents v p).countP isStop = 0 := by
  unfold debugEvents
  split <;> simp [isStop]

theorem debugEvents_countP_isStream (v : Bool) (p : PipelineSnapshot) :
    (debugEvents v p).countP isStream = 0 := by
  unfold debugEvents
  split <;> simp [isStream]

/-- Run of a script of recognized, error-free snapshots ending in the first
`OK` snapshot: the loop finishes, streams exactly once with the stream
invocation as the final event, and emits one stop indicator per detected
status transition. -/
theorem run_forward_aux (a : PollArgs) (pause : Nat) (okSnap : PipelineSnapshot)
    (hok : okSnap.status = OK) (front : List PipelineSnapshot) :
    ∀ last : Option String,
      (∀ s ∈ front, recognizedNonOk s.status ∧ s.isErrorOccurred = false) →
      ∃ tr, pollRun a pause ((front ++ [okSnap]).map some) last = (tr, RunResult.finished) ∧
        tr.countP isStream = 1 ∧
        tr.getLast? = some (Event.streamLogs a.orgCode a.squidName a.versionName) ∧
        tr.countP isStop = countTransitions last (front ++ [okSnap]) := by
  induction front with
  | nil =>
    intro last _
    have ht := ok_tick a last okSnap hok
    have ho : (pollTick a last (some okSnap)).2.2 = TickOutcome.done := by rw [ht]
    refine ⟨(pollTick a last (some okSnap)).1, ?_, ?_, ?_, ?_⟩
    · simpa using run_cons_done a pause (some okSnap) [] last ho
    · rw [ht]
      simp [List.countP_append, List.countP_cons, stopEvents_countP_isStream,
        debugEvents_countP_isStream, isStream]
    · rw [ht]
      rw [List.getLast?_append_of_ne_nil _ (by simp)]
      rfl
    · rw [ht]
      simp [List.countP_append, List.countP_cons, stopEvents_countP_isStop,
        debugEvents_countP_isStop, isStop, countTransitions]
  | cons s front2 ih =>
    intro last hfront
    have hs := hfront s (by simp)
    have ht := progress_tick a last s hs.1 hs.2
    have ho : (pollTick a last (some s)).2.2 = TickOutcome.next := by rw [ht]
    have hl2 : (pollTick a last (some s)).2.1 = some s.status := by rw [ht]
    obtain ⟨tr, htr, h1, h2, h3⟩ := ih (some s.status) (fun x hx => hfront x (by simp [hx]))
    have hstep : pollRun a pause (some s :: (front2 ++ [okSnap]).map some) last
        = ((pollTick a last (some s)).1 ++ Event.sleep pause :: tr, RunResult.finished) := by
      rw [run_cons_next a pause (some s) ((front2 ++ [okSnap]).map some) last ho, hl2, htr]
    have hscript : ((s :: front2) ++ [okSnap]).map some
        = some s :: (front2 ++ [okSnap]).map some := by simp
    have htrne : tr ≠ [] := by
      intro hnil
      rw [hnil] at h2
      simp at h2
    refine ⟨(pollTick a last (some s)).1 ++ Event.sleep pause :: tr, ?_, ?_, ?_, ?_⟩
    · rw [hscript, hstep]
    · rw [ht]
      simp [List.countP_append, List.countP_cons, stopEvents_countP_isStream, isStream, h1]
    · rw [List.getLast?_append_of_ne_nil _ (by simp),
        show Event.sleep pause :: tr = [Event.sleep pause] ++ tr from rfl,
        List.getLast?_append_of_ne_nil _ htrne, h2]
    · have hct : countTransitions last ((s :: front2) ++ [okSnap])
          = (if some s.status ≠ last then 1 else 0)
            + countTransitions (some s.status) (front2 ++ [okSnap]) := by
        simp [countTransitions]
      rw [hct, ht]
      simp [List.countP_append, List.countP_cons, stopEvents_countP_isStop, isStop, h3]

/-- C1: over any found-pipeline snapshot sequence that only moves forward
through the recognized progression with no error flag and reaches `OK`
(whose first `OK` snapshot ends the script), the poller finishes without
any fatal error, announces each detected status transition exactly once
(one `✔️` stop indicator per transition, counted from the undefined
initial `lastStatus`), and terminates only after invoking the log streamer
exactly once — as the final action, on the `OK` snapshot. -/
theorem poller_forward_progression (a : PollArgs) (front : List PipelineSnapshot)
    (okSnap : PipelineSnapshot)
    (hfront : ∀ s ∈ front, recognizedNonOk s.status ∧ s.isErrorOccurred = false)
    (hok : okSnap.status = OK) (hokerr : okSnap.isErrorOccurred = false)
    (hforward : forwardOrder (front ++ [okSnap]) = true) :
    ∃ tr, pollDeployPipelines a ((front ++ [okSnap]).map some) = (tr, RunResult.finished) ∧
      tr.countP isStream = 1 ∧
      tr.getLast? = some (Event.streamLogs a.orgCode a.squidName a.versionName) ∧
      tr.countP isStop = countTransitions none (front ++ [okSnap]) := by
  unfold pollDeployPipelines
  exact run_forward_aux a 3000 okSnap hok front none hfront

/-- Witness for C1: the spec's §8 example scenario
`[CREATED, CREATED, IMAGE_BUILDING, OK]`, which has three transitions. -/
theorem poller_forward_progression_witness :
    (∀ s ∈ [PipelineSnapshot.mk "i" "CREATED" false [] none,
            PipelineSnapshot.mk "i" "CREATED" false [] none,
            PipelineSnapshot.mk "i" "IMAGE_BUILDING" false [] none],
      recognizedNonOk s.status ∧ s.isErrorOccurred = false) ∧
    (PipelineSnapshot.mk "i" "OK" false [] none).status = DeployPipelineStatusEnum.OK ∧
    forwardOrder ([PipelineSnapshot.mk "i" "CREATED" false [] none,
            PipelineSnapshot.mk "i" "CREATED" false [] none,
            PipelineSnapshot.mk "i" "IMAGE_BUILDING" false [] none]
          ++ [PipelineSnapshot.mk "i" "OK" false [] none]) = true ∧
    ∃ tr, pollDeployPipelines (PollArgs.mk "o" "n" "v" "u" true)
          (([PipelineSnapshot.mk "i" "CREATED" false [] none,
             PipelineSnapshot.mk "i" "CREATED" false [] none,
             PipelineSnapshot.mk "i" "IMAGE_BUILDING" false [] none]
           ++ [PipelineSnapshot.mk "i" "OK" false [] none]).map some) = (tr, RunResult.finished) ∧
      tr.countP isStream = 1 ∧
      tr.getLast? = some (Event.streamLogs "o" "n" "v") ∧
      tr.countP isStop = countTransitions none
        ([PipelineSnapshot.mk "i" "CREATED" false [] none,
          PipelineSnapshot.mk "i" "CREATED" false [] none,
          PipelineSnapshot.mk "i" "IMAGE_BUILDING" false [] none]
         ++ [PipelineSnapshot.mk "i" "OK" false [] none]) :=
  ⟨by decide, rfl, by decide,
    poller_forward_progression (PollArgs.mk "o" "n" "v" "u" true)
      [PipelineSnapshot.mk "i" "CREATED" false [] none,
       PipelineSnapshot.mk "i" "CREATED" false [] none,
       PipelineSnapshot.mk "i" "IMAGE_BUILDING" false [] none]
      (PipelineSnapshot.mk "i" "OK" false [] none)
      (by decide) rfl rfl (by decide)⟩

theorem log_not_mem_stopEvents (e : String) (last : Option String) (st : String) :
    Event.log e ∉ stopEvents last st := by
  unfold stopEvents
  split <;> simp

/-- With `verbose = false`, the only `command.log` emission a tick can make
is the fixed `OK`-branch success announcement. -/
theorem log_mem_tick (a : PollArgs) (hv : a.verbose = false) (last : Option String)
    (p : Option PipelineSnapshot) (e : String)
    (h : Event.log e ∈ (pollTick a last p).1) : e = okMessage a.deploymentUrl := by
  match p with
  | none => simp [pollTick] at h
  | some s =>
    by_cases h4 : recognizedNonOk s.status
    · by_cases herr : s.isErrorOccurred
      · rw [failure_tick a last s h4 herr] at h
        simp [List.mem_append, log_not_mem_stopEvents, debugEvents, hv] at h
      · rw [progress_tick a last s h4 (by simpa using herr)] at h
        simp [List.mem_append, log_not_mem_stopEvents] at h
    · by_cases hok : s.status = OK
      · rw [ok_tick a last s hok] at h
        simp [List.mem_append, log_not_mem_stopEvents, debugEvents, hv] at h
        exact h
      · rw [default_tick a last s h4 hok] at h
        simp [List.mem_append, log_not_mem_stopEvents, debugEvents, hv] at h

theorem run_log_events (a : PollArgs) (hv : a.verbose = false) (pause : Nat) :
    ∀ (script : List (Option PipelineSnapshot)) (last : Option String) (e : String),
      Event.log e ∈ (pollRun a pause script last).1 → e = okMessage a.deploymentUrl := by
  intro script
  induction script with
  | nil =>
    intro last e h
    simp [pollRun] at h
  | cons p rest ih =>
    intro last e h
    rcases ho : (pollTick a last p).2.2 with _ | _ | m
    · rw [run_cons_next a pause p rest last ho] at h
      rcases List.mem_append.mp h with h1 | h1
      · exact log_mem_tick a hv last p e h1
      · rcases List.mem_cons.mp h1 with h2 | h2
        · exact Event.noConfusion h2
        · exact ih _ _ h2
    · rw [run_cons_done a pause p rest last ho] at h
      exact log_mem_tick a hv last p e h
    · rw [run_cons_fatal a pause p rest last m ho] at h
      exact log_mem_tick a hv last p e h

theorem dim_data (t : String) :
    (dim t).data = '\x1b' :: '[' :: '2' :: 'm' :: (t.data ++ "\x1b[22m".data) := by
  rw [dim, String.data_append, String.data_append,
    show ("\x1b[2m".data) = ['\x1b', '[', '2', 'm'] from rfl]
  simp

theorem dim_head (t : String) : (dim t).data.head? = some '\x1b' := by
  rw [dim_data]
  rfl

theorem okMessage_head (u : String) : (okMessage u).data.head? = some 'S' := by
  rw [okMessage, String.data_append, String.data_append,
    show ("Squid is running up. Your squid will be shortly available at ".data)
      = 'S' :: "quid is running up. Your squid will be shortly available at ".data from rfl]
  simp

/-- A dim-styled string is never the success announcement: the former
starts with the ANSI escape character, the latter with `S`. -/
theorem dim_ne_okMessage (t u : String) : dim t ≠ okMessage u := by
  intro h
  have h2 : (dim t).data.head? = (okMessage u).data.head? := by rw [h]
  rw [dim_head, okMessage_head] at h2
  exact absurd h2 (by decide)

/-- C8: with `verbose = false` no debug dump text is ever sent to the
caller's logging sink, whatever the script, the starting state and the
snapshot whose dump one asks about — including the terminal `OK` and
unrecognized-status branches. -/
theorem no_debug_dump_when_not_verbose (org n v url : String) (pause : Nat)
    (script : List (Option PipelineSnapshot)) (last : Option String) (q : PipelineSnapshot) :
    Event.log (printDebugText q) ∉
      (pollRun (PollArgs.mk org n v url false) pause script last).1 := by
  intro hmem
  have he := run_log_events (PollArgs.mk org n v url false) rfl pause script last _ hmem
  rw [printDebugText] at he
  exact dim_ne_okMessage _ url he

theorem splitChars_of_count_zero (sep : Char) (l : List Char) (h : l.count sep = 0) :
    splitChars sep l = [l] := by
  induction l with
  | nil => rfl
  | cons c rest ih =>
    rw [List.count_cons] at h
    have hc : ¬ c = sep := by
      intro hcs
      simp [hcs] at h
    have h0 : rest.count sep = 0 := by
      omega
    rw [splitChars, ih h0]
    simp [hc]

theorem splitChars_of_count_one (sep : Char) (l : List Char) (h : l.count sep = 1) :
    splitChars sep l =
      [l.takeWhile (fun ch => ch != sep), (l.dropWhile (fun ch => ch != sep)).tail] := by
  induction l with
  | nil => simp at h
  | cons c rest ih =>
    by_cases hc : c = sep
    · subst hc
      rw [List.count_cons] at h
      simp at h
      rw [splitChars, splitChars_of_count_zero c rest h]
      simp [List.takeWhile_cons, List.dropWhile_cons]
    · rw [List.count_cons] at h
      have h1 : rest.count sep = 1 := by
        have hne : ¬ (c == sep) = true := by simpa using hc
        simp [hne] at h
        omega
      rw [splitChars, ih h1]
      have hcb : (c != sep) = true := by simpa using hc
      simp [List.takeWhile_cons, List.dropWhile_cons, hcb, hc]

theorem hasDotAtDotAux_cons (x : Char) (l : List Char) (h : hasDotAtDotAux l = true) :
    hasDotAtDotAux (x :: l) = true := by
  match l with
  | [] => simp [hasDotAtDotAux] at h
  | [a] => simp [hasDotAtDotAux] at h
  | [a, b] => simp [hasDotAtDotAux] at h
  | a :: b :: c :: rest =>
    rw [hasDotAtDotAux, h]
    simp

/-- The scan `hasDotAtDotAux` finds exactly the strings in which some `@`
has a `.`-matching character immediately on each side. -/
theorem hasDotAtDotAux_iff (l : List Char) :
    hasDotAtDotAux l = true ↔
      ∃ pre a c post, l = pre ++ a :: '@' :: c :: post ∧
        jsDotChar a = true ∧ jsDotChar c = true := by
  constructor
  · induction l with
    | nil => intro h; simp [hasDotAtDotAux] at h
    | cons x l2 ih =>
      intro h
      match l2, ih with
      | [], _ => simp [hasDotAtDotAux] at h
      | [b], _ => simp [hasDotAtDotAux] at h
      | b :: c :: rest, ih =>
        rw [hasDotAtDotAux, Bool.or_eq_true] at h
        rcases h with h1 | h2
        · rw [Bool.and_eq_true, Bool.and_eq_true] at h1
          obtain ⟨⟨hx, hb⟩, hc⟩ := h1
          exact ⟨[], x, c, rest, by simp [eq_of_beq hb], hx, hc⟩
        · obtain ⟨pre, a, c2, post, heq, ha, hc⟩ := ih h2
          exact ⟨x :: pre, a, c2, post, by simp [heq], ha, hc⟩
  · rintro ⟨pre, a, c, post, rfl, ha, hc⟩
    induction pre with
    | nil => simp [hasDotAtDotAux, ha, hc]
    | cons x pre2 ih =>
      rw [List.cons_append]
      exact hasDotAtDotAux_cons x _ ih

/-- C9, counterexample: the input `"@"` contains exactly one `@`, yet
`parseNameAndVersion` raises the fatal validation error instead of
returning the (empty) name and version around it. -/
theorem parse_single_at_rejected :
    "@".data.count '@' = 1 ∧
    parseNameAndVersion "@" =
      Except.error "Required format: <name>@<version>. Symbol @ not allowed in names" :=
  ⟨by decide, by rfl⟩

/-- C9, amended: `parseNameAndVersion` fails exactly when the token does
not both (a) contain exactly one `@` and (b) have, around some `@`, a
non-line-terminator character immediately on each side (the `/.+@.+/`
test); on success it returns the substring before the `@` and the
substring after it. -/
theorem parse_name_version_characterization (s : String) :
    ((∃ m, parseNameAndVersion s = Except.error m) ↔
      ¬ (s.data.count '@' = 1 ∧
        ∃ pre a c post, s.data = pre ++ a :: '@' :: c :: post ∧
          jsDotChar a = true ∧ jsDotChar c = true)) ∧
    (∀ n v, parseNameAndVersion s = Except.ok (n, v) →
      n.data = s.data.takeWhile (fun ch => ch != '@') ∧
      v.data = (s.data.dropWhile (fun ch => ch != '@')).tail) := by
  constructor
  · unfold parseNameAndVersion
    split
    · rename_i hcond
      constructor
      · intro _
        rintro ⟨hcount, hdecomp⟩
        have hmatch : hasFullMatch s = true := by
          rw [hasFullMatch, hasDotAtDotAux_iff]
          exact hdecomp
        rcases hcond with hfm | hcnt
        · rw [hmatch] at hfm
          exact Bool.noConfusion hfm
        · exact hcnt hcount
      · intro _
        exact ⟨_, rfl⟩
    · rename_i hcond
      push_neg at hcond
      obtain ⟨hm, hcount⟩ := hcond
      constructor
      · rintro ⟨m, hcontra⟩
        exact Except.noConfusion hcontra
      · intro hneg
        exfalso
        apply hneg
        refine ⟨hcount, ?_⟩
        rw [← hasDotAtDotAux_iff]
        cases hfm : hasFullMatch s
        · exact absurd hfm hm
        · exact hfm
  · intro n v h
    unfold parseNameAndVersion at h
    split at h
    · exact Except.noConfusion h
    · rename_i hcond
      push_neg at hcond
      have hcount : countAtSigns s = 1 := hcond.2
      have hsplit := splitChars_of_count_one '@' s.data hcount
      rw [Except.ok.injEq, Prod.mk.injEq] at h
      obtain ⟨hn, hv⟩ := h
      rw [jsSplit, hsplit] at hn hv
      constructor
      · rw [← hn]
        rfl
      · rw [← hv]
        rfl

/-- Witness for the amended C9 on the well-formed input `a@b`. -/
theorem parse_name_version_characterization_witness :
    "a".data = "a@b".data.takeWhile (fun ch => ch != '@') ∧
    "b".data = ("a@b".data.dropWhile (fun ch => ch != '@')).tail := by
  have h := (parse_name_version_characterization "a@b").2 "a" "b" (by rfl)
  exact h

end SquidCli
